import Mathlib

/-!
Shallow embedding of the uweb3 client-side template engine (the most complete
rewrite of the `Template` / `TemplateConditional` / `TemplateLoop` classes,
plus the guard-clause evaluator `_EvaluateClause`).  Strings are modelled as
Lean `String` (= packed `List Char`); all recursion is structural (fuel where
the source loops consume more than one character per step) so that every
definition evaluates inside the kernel.

JavaScript-host behaviour is embedded as follows:
- `window.replacements` (the ambient global the constructor writes) is an
  explicit `Window` state threaded through `TemplateConstructor`;
- the dynamic `Function(...)()` call in `_EvaluateClause` is modelled by
  `runClause`: the generated `let name = "value";` bindings become an
  environment (a binding whose value contains a quote, backslash or newline
  would make the generated program ill-formed, which the model reports as
  `codeError`, and duplicate `let` names likewise), and the rewritten guard
  text is tokenized and parsed over the JS expression fragment the engine
  actually emits (identifiers, `==`, `&&`, `||`) and evaluated with JS
  truthiness and same-type loose equality; identifiers not bound by the
  generated `let`s resolve against the ambient globals, exactly as a
  JS `Function` body does.
- replacement values are strings, booleans, integers, or flat arrays (the
  shapes the host feeds the engine); `strOf` is JS `String(...)` on these.
-/

/-- JavaScript values that occur in a ReplacementMap: strings, booleans,
integer numbers, and (for loop sources) flat arrays, whose JS string form
joins the elements with commas. -/
inductive JsVal where
  | str (s : String)
  | bool (b : Bool)
  | num (n : Int)
  | list (elems : List String)

/-- Errors a render can raise in the JS host: `typeError` (calling a missing
method / mapping over `null`), the thrown string literal `"NotImplemented"`
for guard expressions containing `in`, a `ReferenceError` for an unbound
identifier inside the evaluated guard, and `codeError` for generated guard
code that is not well-formed. -/
inductive JsError where
  | typeError
  | notImplemented
  | refError
  | codeError
  deriving DecidableEq

/-- JS `Array.prototype.join(",")`, the stringification of an array. -/
def strOfList : List String → String
  | [] => ""
  | [e] => e
  | e :: rest => e ++ "," ++ strOfList rest

/-- JS `String(v)` for the modelled value shapes. -/
def strOf : JsVal → String
  | .str s => s
  | .bool true => "true"
  | .bool false => "false"
  | .num n => toString n
  | .list es => strOfList es

/-- Property lookup in a JS object literal, modelled as first match in the
key/value list. -/
def lookupRepl (repl : List (String × JsVal)) (k : String) : Option JsVal :=
  match repl with
  | [] => none
  | (k0, v) :: rest => if k0 = k then some v else lookupRepl rest k

/-- JS string interpolation of an object-lookup result: a missing property is
`undefined` and stringifies to `"undefined"`. -/
def strOfOpt : Option JsVal → String
  | none => "undefined"
  | some v => strOf v

/-- JS `Array.prototype.join(sep)`: an `undefined` separator (a missing
replacement used as join argument) defaults to `","`. -/
def sepOfOpt : Option JsVal → String
  | none => ","
  | some v => strOf v

/-- Substring test over character lists (JS `String.prototype.includes`;
the empty needle is contained in every string). -/
def containsL (needle : List Char) : List Char → Bool
  | [] => needle.isEmpty
  | c :: rest => needle.isPrefixOf (c :: rest) || containsL needle rest

/-- Fueled splitter on a fixed non-empty separator (JS `split`), fuel at
least the haystack length processes the whole haystack. -/
def splitOnL (needle : List Char) : Nat → List Char → List (List Char)
  | 0, hay => [hay]
  | _ + 1, [] => [[]]
  | fuel + 1, c :: rest =>
    if needle.isPrefixOf (c :: rest) then
      [] :: splitOnL needle fuel ((c :: rest).drop needle.length)
    else
      match splitOnL needle fuel rest with
      | [] => [[c]]
      | seg :: segs => (c :: seg) :: segs

/-- JS `Array.prototype.join` over strings. -/
def joinSep (sep : String) : List String → String
  | [] => ""
  | [s] => s
  | s :: rest => s ++ sep ++ joinSep sep rest

/-- JS `s.split(k).join(v)`, the engine's global textual substitution; an
empty pattern splits into single characters as JS does. -/
def jsReplaceAll (k v s : String) : String :=
  if k.data.isEmpty then joinSep v (s.data.map (fun c => String.mk [c]))
  else joinSep v ((splitOnL k.data s.data.length s.data).map String.mk)

/-- JS `String.prototype.replace` with a plain-string pattern: first
occurrence only. -/
def replaceFirstL (pat rep : List Char) : List Char → List Char
  | [] => []
  | c :: rest =>
    if pat.isPrefixOf (c :: rest) then rep ++ (c :: rest).drop pat.length
    else c :: replaceFirstL pat rep rest

/-- String-level wrapper for `replaceFirstL`; an empty pattern prepends the
replacement as in JS. -/
def jsReplaceFirst (pat rep s : String) : String :=
  if pat.data.isEmpty then rep ++ s
  else String.mk (replaceFirstL pat.data rep.data s.data)

/-- JS `split(" ")` on a single-space separator. -/
def splitSpaceL : List Char → List (List Char)
  | [] => [[]]
  | c :: rest =>
    if c = ' ' then [] :: splitSpaceL rest
    else
      match splitSpaceL rest with
      | [] => [[c]]
      | seg :: segs => (c :: seg) :: segs

/-- Greedy take of characters satisfying `p`, returning the remainder. -/
def takeWhileSplit (p : Char → Bool) : List Char → List Char × List Char
  | [] => ([], [])
  | c :: rest =>
    if p c then
      match takeWhileSplit p rest with
      | (a, b) => (c :: a, b)
    else ([], c :: rest)

/-- Like `takeWhileSplit` but requires at least one matching character. -/
def takeWhile1 (p : Char → Bool) : List Char → Option (List Char × List Char)
  | [] => none
  | c :: rest =>
    if p c then
      match takeWhileSplit p rest with
      | (a, b) => some (c :: a, b)
    else none

/-- Whitespace class of the JS regexes used by the engine (`\s`, ASCII
range). -/
def isWs (c : Char) : Bool :=
  c = ' ' || c = '\t' || c = '\n' || c = '\r' || c = '\x0b' || c = '\x0c'

/-- Trim of the whitespace the directive regex `\s*` strips on both sides of
a directive's interior. -/
def trimL (l : List Char) : List Char :=
  ((l.dropWhile isWs).reverse.dropWhile isWs).reverse

/-- JS regex `\w`. -/
def wordChar (c : Char) : Bool :=
  ('a' ≤ c && c ≤ 'z') || ('A' ≤ c && c ≤ 'Z') || ('0' ≤ c && c ≤ '9') || c = '_'

/-- JS regex `[\w-]`. -/
def wordDash (c : Char) : Bool :=
  wordChar c || c = '-'

/-- Match of the tag regex's modifier part `(?:(?::[\w-]+)+)?` starting at
`l`: consumes zero or more `:modifier` groups, returning the consumed text
and the rest; a `:` not followed by a `[\w-]` character makes the whole tag
match fail, as it does for the source regex. -/
def parseMods : Nat → List Char → Option (List Char × List Char)
  | 0, l => some ([], l)
  | fuel + 1, l =>
    match l with
    | ':' :: rest =>
      match takeWhile1 wordDash rest with
      | some (tk, rest1) =>
        match parseMods fuel rest1 with
        | some (m, r) => some (':' :: tk ++ m, r)
        | none => none
      | none => none
    | _ => some ([], l)

/-- Match of the tag regex's filter part `(?:(?:\|[\w-]+(?:\([^()]*?\))?)+)?`:
zero or more `|filter` groups, each optionally carrying a parenthesised
argument list free of nested parentheses. -/
def parseFilters : Nat → List Char → Option (List Char × List Char)
  | 0, l => some ([], l)
  | fuel + 1, l =>
    match l with
    | '|' :: rest =>
      match takeWhile1 wordDash rest with
      | some (tk, rest1) =>
        match rest1 with
        | '(' :: r2 =>
          match takeWhileSplit (fun c => c ≠ '(' && c ≠ ')') r2 with
          | (args, r3) =>
            match r3 with
            | ')' :: r4 =>
              match parseFilters fuel r4 with
              | some (f, r) => some ('|' :: tk ++ '(' :: args ++ ')' :: f, r)
              | none => none
            | _ => some ('|' :: tk, rest1)
        | _ =>
          match parseFilters fuel rest1 with
          | some (f, r) => some ('|' :: tk ++ f, r)
          | none => none
      | none => none
    | _ => some ([], l)

/-- Attempt to match the engine's TAG regex
`\[\w+(?:(?::[\w-]+)+)?(?:(?:\|[\w-]+(?:\([^()]*?\))?)+)?\]` anchored at the
head of `l`; on success returns the matched tag text and the rest. -/
def matchTagAt (l : List Char) : Option (List Char × List Char) :=
  match l with
  | '[' :: rest =>
    match takeWhile1 wordChar rest with
    | some (name, r1) =>
      match parseMods r1.length r1 with
      | some (m, r2) =>
        match parseFilters r2.length r2 with
        | some (f, r3) =>
          match r3 with
          | ']' :: r4 => some ('[' :: name ++ m ++ f ++ [']'], r4)
          | _ => none
        | none => none
      | none => none
    | none => none
  | _ => none

/-- All matches of the TAG regex (global flag): scan left to right, emitting
each match and continuing after it. -/
def findTagsAux : Nat → List Char → List String
  | 0, _ => []
  | _ + 1, [] => []
  | fuel + 1, c :: rest =>
    match matchTagAt (c :: rest) with
    | some (tag, r) => String.mk tag :: findTagsAux fuel r
    | none => findTagsAux fuel rest

/-- `expr.match(TAG)` of the source, as the list of matched tag literals. -/
def findTags (s : String) : List String :=
  findTagsAux s.data.length s.data

/-- Search success of the bare-tag regex `\[\w+?\]` at the head of `l`. -/
def bareAt (l : List Char) : Bool :=
  match l with
  | '[' :: rest =>
    match takeWhile1 wordChar rest with
    | some (_, ']' :: _) => true
    | _ => false
  | _ => false

/-- JS `new RegExp(/(\[\w+?\])/gm).test(value)`: a search anywhere in the
string for a bracketed run of word characters; this is how `_EvaluateClause`
distinguishes a bare tag from a tag with modifiers or filters. -/
def bareSearch : List Char → Bool
  | [] => false
  | c :: rest => bareAt (c :: rest) || bareSearch rest

/-- Tokens of the JS expression fragment the rewritten guard text consists
of: identifiers, `==`, `&&`, `||`. -/
inductive JsTok where
  | ident (s : String)
  | eqeq
  | andand
  | oror
  deriving DecidableEq

/-- Identifier characters of the evaluated guard code. -/
def identChar (c : Char) : Bool :=
  wordChar c || c = '$'

/-- Tokenizer for the rewritten guard text; anything outside the emitted
fragment is rejected, which `runClause` reports as `codeError`. -/
def tokenizeJs : Nat → List Char → Option (List JsTok)
  | 0, [] => some []
  | 0, _ => none
  | _ + 1, [] => some []
  | fuel + 1, c :: rest =>
    if c = ' ' then tokenizeJs fuel rest
    else if c = '=' then
      match rest with
      | '=' :: r2 => (tokenizeJs fuel r2).map (JsTok.eqeq :: ·)
      | _ => none
    else if c = '&' then
      match rest with
      | '&' :: r2 => (tokenizeJs fuel r2).map (JsTok.andand :: ·)
      | _ => none
    else if c = '|' then
      match rest with
      | '|' :: r2 => (tokenizeJs fuel r2).map (JsTok.oror :: ·)
      | _ => none
    else if identChar c then
      match takeWhileSplit identChar rest with
      | (tk, r2) => (tokenizeJs fuel r2).map (JsTok.ident (String.mk (c :: tk)) :: ·)
    else none

/-- Abstract form of a rewritten guard: an identifier, or one binary
operator between identifiers (the only shapes the engine's generated
`if(<expr>)` bodies take for the guards exercised here). -/
inductive JsExpr where
  | ident (s : String)
  | eq (a b : String)
  | conj (a b : String)
  | disj (a b : String)

/-- Parse of the token stream into the supported shapes. -/
def parseJs (toks : List JsTok) : Option JsExpr :=
  match toks with
  | [.ident a] => some (.ident a)
  | [.ident a, .eqeq, .ident b] => some (.eq a b)
  | [.ident a, .andand, .ident b] => some (.conj a b)
  | [.ident a, .oror, .ident b] => some (.disj a b)
  | _ => none

/-- JS truthiness of the modelled values (arrays are always truthy). -/
def truthy : JsVal → Bool
  | .str s => !(s == "")
  | .bool b => b
  | .num n => !(n == 0)
  | .list _ => true

/-- JS `==` restricted to same-type operands (the only comparisons the
rewritten guards perform); distinct types compare unequal here. -/
def looseEq : JsVal → JsVal → Bool
  | .str a, .str b => a == b
  | .bool a, .bool b => a == b
  | .num a, .num b => a == b
  | _, _ => false

/-- Identifier resolution inside the generated `Function` body: the `let`
bindings first, then the ambient globals; an identifier bound nowhere is a
`ReferenceError`. -/
def evalIdent (env : List (String × JsVal)) (s : String) : Except JsError JsVal :=
  match lookupRepl env s with
  | some v => .ok v
  | none => .error .refError

/-- Evaluation of the parsed guard shape; `&&` and `||` return an operand
value as in JS. -/
def evalJs (env : List (String × JsVal)) : JsExpr → Except JsError JsVal
  | .ident s => evalIdent env s
  | .eq a b =>
    match evalIdent env a with
    | .error e => .error e
    | .ok va =>
      match evalIdent env b with
      | .error e => .error e
      | .ok vb => .ok (.bool (looseEq va vb))
  | .conj a b =>
    match evalIdent env a with
    | .error e => .error e
    | .ok va => if truthy va then evalIdent env b else .ok va
  | .disj a b =>
    match evalIdent env a with
    | .error e => .error e
    | .ok va => if truthy va then .ok va else evalIdent env b

/-- Result of `_EvaluateClause`'s rewriting loop: the accumulated `let`
bindings (name, stringified value) and the final rewritten expression
text. -/
structure ClauseRewrite where
  bindings : List (String × String)
  tempExpr : String

/-- One iteration of the `expr.match(this.TAG).map((value) => ...)` loop of
`_EvaluateClause`: a bare tag appends a `let` binding for its bracket-free
name and rewrites `expr` (the full original, not the accumulator) with the
name; any other tag rewrites `expr` with the joined replacement value. -/
def clauseStep (repl : List (String × JsVal)) (expr : String)
    (acc : List (String × String) × String) (tag : String) :
    List (String × String) × String :=
  if bareSearch tag.data then
    (acc.1 ++ [(String.mk ((tag.data.drop 1).dropLast),
                strOfOpt (lookupRepl repl tag))],
     jsReplaceAll tag (String.mk ((tag.data.drop 1).dropLast)) expr)
  else
    (acc.1, jsReplaceAll tag (sepOfOpt (lookupRepl repl tag)) expr)

/-- The rewriting phase of `TemplateConditional._EvaluateClause`: replace the
first `" and "` with `" && "` and the first `" or "` with `" || "`, throw
`"NotImplemented"` when `" in "` occurs, throw a `TypeError` when the tag
regex has no match (JS `null.map`), and otherwise run the per-tag rewrite
loop starting from the empty accumulator. -/
def rewriteClause (expr0 : String) (repl : List (String × JsVal)) :
    Except JsError ClauseRewrite :=
  let e1 := jsReplaceFirst " and " " && " expr0
  let e2 := jsReplaceFirst " or " " || " e1
  if containsL " in ".data e2.data then .error .notImplemented
  else
    match findTags e2 with
    | [] => .error .typeError
    | tags =>
      match tags.foldl (clauseStep repl e2) ([], "") with
      | (bindings, tempExpr) => .ok ⟨bindings, tempExpr⟩

/-- Characters that would break out of the generated
`let name = "value";` string literal and make the `Function` source
ill-formed. -/
def cleanStr (s : String) : Bool :=
  s.data.all (fun c => c ≠ '"' && c ≠ '\\' && c ≠ '\n' && c ≠ '\r')

/-- Duplicate `let` names in one generated body are a redeclaration error. -/
def namesNodup : List (String × String) → Bool
  | [] => true
  | (n, _) :: rest => !(rest.any (fun p => p.1 == n)) && namesNodup rest

/-- Model of `Function(variables + "if(" + tempExpr + "){return true}else" +
"{return false}")()`: reject ill-formed generated code, bind the `let`s as
string values shadowing the ambient globals, evaluate the rewritten guard,
and coerce the result with JS truthiness. -/
def runClause (bindings : List (String × String)) (tempExpr : String)
    (globals : List (String × JsVal)) : Except JsError Bool :=
  if (bindings.all (fun p => cleanStr p.2)) = false then .error .codeError
  else if namesNodup bindings = false then .error .codeError
  else
    match tokenizeJs tempExpr.data.length tempExpr.data with
    | none => .error .codeError
    | some toks =>
      match parseJs toks with
      | none => .error .codeError
      | some ast =>
        match evalJs (bindings.map (fun p => (p.1, JsVal.str p.2)) ++ globals) ast with
        | .error e => .error e
        | .ok v => .ok (truthy v)

/-- `TemplateConditional._EvaluateClause(expr)`: rewrite, then evaluate the
generated code against `window.replacements` (already rewritten in) and the
ambient globals. -/
def EvaluateClause (expr : String) (repl globals : List (String × JsVal)) :
    Except JsError Bool :=
  match rewriteClause expr repl with
  | .error e => .error e
  | .ok rw => runClause rw.bindings rw.tempExpr globals

/-- Nodes held by the scope machinery: a `TemplateConditional` (ordered
`branches`), a `TemplateLoop` (its single header branch), a branch record
`{index, expr, istrue}` (`expr`/`istrue` absent where the source omits
them), and nested scope objects pushed into a parent's `branches` by
`_StartScope`. -/
inductive ScopeNode where
  | cond (branches : List ScopeNode)
  | loop (branches : List ScopeNode)
  | branch (index : Nat) (expr : Option String) (istrue : Option Bool)

/-- Mutable state of a `Template` instance while `AddString` runs: the text
segments collected in `this.tmp` (JS integer keys iterate in the ascending
insertion order, so a list in insertion order is faithful), the closed
`this.scopes` (which can receive JS `undefined` from a stray `endfor`,
hence `Option`), and the `this.openScopes` stack. -/
structure TState where
  tmp : List String
  scopes : List (Option ScopeNode)
  openScopes : List ScopeNode

/-- Append an entry to a scope object's `branches` array. -/
def pushBranch (e : ScopeNode) : ScopeNode → ScopeNode
  | .cond brs => .cond (brs ++ [e])
  | .loop brs => .loop (brs ++ [e])
  | .branch i x t => .branch i x t

/-- `Template._StartScope`: with open scopes present the new scope is pushed
into the innermost open scope's `branches`; otherwise it is appended to
`this.scopes`. -/
def startScope (sc : ScopeNode) (st : TState) : TState :=
  match st.openScopes.getLast? with
  | some last =>
    { st with openScopes := st.openScopes.dropLast ++ [pushBranch sc last] }
  | none => { st with scopes := st.scopes ++ [some sc] }

/-- `Template._ExtendFunction` and the `_TemplateConstruct*` handlers it
dispatches to: split the directive text on single spaces, capitalize the
first word, and run the matching handler; an unrecognized keyword is a JS
`TypeError` (calling `undefined`).  `If` evaluates its clause (the result is
discarded) and starts a conditional scope; `For` pushes a loop scope onto
`openScopes` (both arms of its `if` do the same); `Endfor` moves the
innermost open scope — JS `undefined` when there is none — onto `scopes`;
`Elif`/`Else` call methods on the LAST CLOSED scope (a `TypeError` unless it
is a conditional), `Elif` evaluating its clause and recording `istrue`;
`Endif` is a no-op. -/
def extendFunction (repl globals : List (String × JsVal)) (content : String)
    (idx : Nat) (st : TState) : Except JsError TState :=
  let parts := (splitSpaceL content.data).map String.mk
  let func :=
    match (parts.headD "").data with
    | [] => ""
    | c :: cs => String.mk (c.toUpper :: cs)
  let expr := joinSep " " parts.tail
  match func with
  | "If" =>
    match EvaluateClause expr repl globals with
    | .error e => .error e
    | .ok _ =>
      .ok (startScope (.cond [.branch idx (some expr) none]) st)
  | "For" =>
    .ok { st with openScopes := st.openScopes ++ [.loop [.branch idx (some expr) none]] }
  | "Endfor" =>
    .ok { st with scopes := st.scopes ++ [st.openScopes.getLast?],
                  openScopes := st.openScopes.dropLast }
  | "Elif" =>
    match st.scopes.getLast? with
    | some (some (.cond brs)) =>
      match EvaluateClause expr repl globals with
      | .error e => .error e
      | .ok istrue =>
        .ok { st with scopes :=
          st.scopes.dropLast ++ [some (.cond (brs ++ [.branch idx (some expr) (some istrue)]))] }
    | _ => .error .typeError
  | "Else" =>
    match st.scopes.getLast? with
    | some (some (.cond brs)) =>
      .ok { st with scopes :=
        st.scopes.dropLast ++ [some (.cond (brs ++ [.branch idx none none]))] }
    | _ => .error .typeError
  | "Endif" => .ok st
  | _ => .error .typeError

/-- The `nodes.map((node, index) => ...)` loop of `Template.AddString`:
odd-indexed split segments are directives, even-indexed segments are stored
as text in `this.tmp`. -/
def processSegments (repl globals : List (String × JsVal)) :
    List String → Nat → TState → Except JsError TState
  | [], _, st => .ok st
  | seg :: rest, idx, st =>
    if idx % 2 = 1 then
      match extendFunction repl globals seg idx st with
      | .error e => .error e
      | .ok st1 => processSegments repl globals rest (idx + 1) st1
    else
      processSegments repl globals rest (idx + 1) { st with tmp := st.tmp ++ [seg] }

/-- Position of the first `{{` in the text: the prefix before it and the
remainder after it. -/
def findOpen : List Char → Option (List Char × List Char)
  | [] => none
  | '\x7b' :: '\x7b' :: rest => some ([], rest)
  | c :: rest =>
    match findOpen rest with
    | some (pre, r) => some (c :: pre, r)
    | none => none

/-- Position of the first `}}`: the interior before it and the remainder
after it. -/
def findClose : List Char → Option (List Char × List Char)
  | [] => none
  | '\x7d' :: '\x7d' :: rest => some ([], rest)
  | c :: rest =>
    match findClose rest with
    | some (inner, r) => some (c :: inner, r)
    | none => none

/-- `template.split(this.FUNCTION)` with `FUNCTION = /\{\{\s*(.*?)\s*\}\}/mg`:
alternating literal text and captured directive interiors (lazy capture up to
the first `}}`, interior whitespace stripped); a `{{` with no following `}}`
leaves the remainder as one literal segment. -/
def splitTemplateAux : Nat → List Char → List String
  | 0, s => [String.mk s]
  | fuel + 1, s =>
    match findOpen s with
    | none => [String.mk s]
    | some (pre, rest) =>
      match findClose rest with
      | none => [String.mk s]
      | some (inner, rest2) =>
        String.mk pre :: String.mk (trimL inner) :: splitTemplateAux fuel rest2

/-- The tokenizing split of a whole template. -/
def splitTemplate (s : String) : List String :=
  splitTemplateAux s.data.length s.data

/-- Whether the directive regex matches anywhere in the template: a `{{`
followed (later) by a `}}`. -/
def hasDirective (t : String) : Bool :=
  match findOpen t.data with
  | none => false
  | some (_, rest) => (findClose rest).isSome

/-- `Template._EvaluateScope`: its entire branch-pruning body is commented
out in the source, so it only logs and leaves the state unchanged. -/
def EvaluateScope (st : TState) : TState :=
  st

/-- The constructor's final loop
`for(let replacement in replacements){ this.template =
this.template.split(replacement).join(replacements[replacement]); }`:
global textual substitution of every key, in map order. -/
def substAll (repl : List (String × JsVal)) (s : String) : String :=
  repl.foldl (fun acc kv => jsReplaceAll kv.1 (strOf kv.2) acc) s

/-- `new Template(template, replacements).template` for given ambient
globals: tokenize, run `AddString`'s dispatch loop (errors propagate out of
the constructor), run the no-op `_EvaluateScope`, concatenate the text
segments of `this.tmp`, then substitute every replacement key. -/
def render (template : String) (repl globals : List (String × JsVal)) :
    Except JsError String :=
  match processSegments repl globals (splitTemplate template) 0 ⟨[], [], []⟩ with
  | .error e => .error e
  | .ok st => .ok (substAll repl (joinSep "" (EvaluateScope st).tmp))

/-- The ambient browser state the engine touches: `window.replacements`
(written by the constructor) and the other globals visible to the generated
guard code. -/
structure Window where
  replacements : List (String × JsVal)
  globals : List (String × JsVal)

/-- The full constructor including its first statement
`window.replacements = replacements`: returns the render result together
with the mutated window. -/
def TemplateConstructor (template : String) (repl : List (String × JsVal))
    (w : Window) : Except JsError String × Window :=
  (render template repl w.globals, { w with replacements := repl })

theorem containsL_nil_true (hay : List Char) : containsL [] hay = true := by
  cases hay <;> rfl

theorem splitOnL_of_not_contains (needle : List Char) :
    ∀ (fuel : Nat) (hay : List Char), containsL needle hay = false →
    splitOnL needle fuel hay = [hay] := by
  intro fuel
  induction fuel with
  | zero => intro hay _; rfl
  | succ n ih =>
    intro hay h
    cases hay with
    | nil => rfl
    | cons c rest =>
      have h2 : (needle.isPrefixOf (c :: rest) || containsL needle rest) = false := h
      rw [Bool.or_eq_false_iff] at h2
      obtain ⟨hp, hc⟩ := h2
      simp only [splitOnL, hp, Bool.false_eq_true, if_false, ih rest hc]

theorem jsReplaceAll_of_not_contains (k v s : String)
    (h : containsL k.data s.data = false) : jsReplaceAll k v s = s := by
  have hk : k.data.isEmpty = false := by
    cases hd : k.data with
    | nil =>
      rw [hd, containsL_nil_true s.data] at h
      exact absurd h (by simp)
    | cons a as => rfl
  unfold jsReplaceAll
  rw [hk]
  simp only [Bool.false_eq_true, if_false]
  rw [splitOnL_of_not_contains k.data s.data.length s.data h]
  rfl

theorem substAll_of_no_key (repl : List (String × JsVal)) (s : String)
    (h : ∀ kv ∈ repl, containsL kv.1.data s.data = false) :
    substAll repl s = s := by
  induction repl with
  | nil => rfl
  | cons kv rest ih =>
    unfold substAll
    simp only [List.foldl_cons]
    rw [jsReplaceAll_of_not_contains kv.1 (strOf kv.2) s (h kv (List.mem_cons_self kv rest))]
    exact ih (fun kv2 hm => h kv2 (List.mem_cons_of_mem kv hm))

theorem splitTemplateAux_of_no_directive :
    ∀ (fuel : Nat) (s : List Char),
    (match findOpen s with
     | none => True
     | some (_, rest) => findClose rest = none) →
    splitTemplateAux fuel s = [String.mk s] := by
  intro fuel s h
  cases fuel with
  | zero => rfl
  | succ n =>
    unfold splitTemplateAux
    cases hfo : findOpen s with
    | none => rfl
    | some p =>
      obtain ⟨pre, rest⟩ := p
      rw [hfo] at h
      simp only at h
      show (match findClose rest with
            | none => [String.mk s]
            | some (inner, rest2) =>
              String.mk pre :: String.mk (trimL inner) :: splitTemplateAux n rest2) =
        [String.mk s]
      rw [h]

theorem splitTemplate_of_no_directive (t : String) (h : hasDirective t = false) :
    splitTemplate t = [t] := by
  unfold splitTemplate
  have h2 : (match findOpen t.data with
             | none => True
             | some (_, rest) => findClose rest = none) := by
    unfold hasDirective at h
    cases hfo : findOpen t.data with
    | none => trivial
    | some p =>
      obtain ⟨pre, rest⟩ := p
      rw [hfo] at h
      simp only at h
      cases hfc : findClose rest with
      | none => trivial
      | some q => rw [hfc] at h; exact absurd h (by simp)
  rw [splitTemplateAux_of_no_directive t.data.length t.data h2]

theorem runClause_single_x (s : String) (g : List (String × JsVal))
    (h : cleanStr s = true) :
    runClause [("x", s)] "x" g = .ok (!(s == "")) := by
  unfold runClause
  rw [show ([("x", s)].all fun p => cleanStr p.2) = true by simp [h]]
  rfl

/-- C1: for the template with an if/else block and a truthy or a falsy
binding of `[x]`, the engine renders the concatenation of BOTH branch
bodies, `"AB"` — the branch-pruning pass `_EvaluateScope` is commented out,
so the non-live branch text always appears; the claim's outputs `"A"` /
`"B"` are not produced. -/
theorem conditional_renders_both_branches :
    render "\x7b\x7b if [x] \x7d\x7dA\x7b\x7b else \x7d\x7dB\x7b\x7b endif \x7d\x7d"
      [("[x]", JsVal.str "true")] [] = .ok "AB" ∧
    render "\x7b\x7b if [x] \x7d\x7dA\x7b\x7b else \x7d\x7dB\x7b\x7b endif \x7d\x7d"
      [("[x]", JsVal.str "")] [] = .ok "AB" :=
  ⟨rfl, rfl⟩

/-- C2: with `[x]` and `[y]` both truthy the if/elif/else template renders
all three branch bodies `"ABC"` instead of `"A"`, and the `elif` guard of a
branch after a true `if` guard IS evaluated — an `elif` guard containing
`in` aborts the whole render with the thrown `"NotImplemented"` even though
the `if` guard already held. -/
theorem elif_renders_all_branches :
    render "\x7b\x7b if [x] \x7d\x7dA\x7b\x7b elif [y] \x7d\x7dB\x7b\x7b else \x7d\x7dC\x7b\x7b endif \x7d\x7d"
      [("[x]", JsVal.str "true"), ("[y]", JsVal.str "true")] [] = .ok "ABC" ∧
    render "\x7b\x7b if [x] \x7d\x7dA\x7b\x7b elif [y] in [z] \x7d\x7dB\x7b\x7b endif \x7d\x7d"
      [("[x]", JsVal.str "true"), ("[y]", JsVal.str "true")] [] = .error .notImplemented :=
  ⟨rfl, rfl⟩

/-- C3: a for/endfor block is parsed into a `TemplateLoop` scope that is
never expanded: with a three-element source the body text appears exactly
once, with the loop variable tag left unsubstituted, and with an empty
source the output is the same single body text rather than the empty
string. -/
theorem loop_body_rendered_once_unexpanded :
    render "\x7b\x7b for item in [items] \x7d\x7d[item];\x7b\x7b endfor \x7d\x7d"
      [("[items]", JsVal.list ["a", "b", "c"])] [] = .ok "[item];" ∧
    render "\x7b\x7b for item in [items] \x7d\x7d[item];\x7b\x7b endfor \x7d\x7d"
      [("[items]", JsVal.list [])] [] = .ok "[item];" :=
  ⟨rfl, rfl⟩

/-- C4: a mismatched `endfor` closing an `if` block, and an unclosed `for`
block at end of input, both render silently — `_TemplateConstructEndfor`
pushes JS `undefined` onto `scopes` without error when `openScopes` is
empty, and nothing checks `openScopes` at end of input — so the engine
emits the partial output `"A"` instead of any structured error. -/
theorem mismatched_directives_render_silently :
    render "\x7b\x7b if [x] \x7d\x7dA\x7b\x7b endfor \x7d\x7d"
      [("[x]", JsVal.str "true")] [] = .ok "A" ∧
    render "\x7b\x7b for x in [items] \x7d\x7dA" [] [] = .ok "A" :=
  ⟨rfl, rfl⟩

/-- C5: a bare guard tag absent from the ReplacementMap raises no error:
`window.replacements["[x]"]` is `undefined`, the generated binding is
`let x = "undefined";`, and the non-empty string `"undefined"` makes the
guard evaluate to `true` — the opposite of both reporting an error and
treating the guard as false. -/
theorem missing_tag_evaluates_truthy :
    EvaluateClause "[x]" [] [] = .ok true :=
  rfl

/-- C6: the clause evaluator is not confined to the ReplacementMap: the
guard `"[x] == flag"` with the same expression and the same ReplacementMap
evaluates to `true` or to `false` depending on the ambient global binding
of `flag`, because the generated `Function` body resolves free identifiers
against the global scope. -/
theorem clause_depends_on_globals :
    EvaluateClause "[x] == flag" [("[x]", JsVal.str "1")]
      [("flag", JsVal.str "1")] = .ok true ∧
    EvaluateClause "[x] == flag" [("[x]", JsVal.str "1")]
      [("flag", JsVal.str "2")] = .ok false :=
  ⟨rfl, rfl⟩

/-- C7: the rewrite loop recomputes `temp_expr` from the ORIGINAL expression
on every tag (`temp_expr = expr.split(value).join(...)`), so with two bare
tags only the last substitution survives: the rewritten text for
`"[x] == [y]"` is `"[x] == y"`, which still contains the bracketed tag
`"[x]"` — refuting that no bracketed tag text remains. -/
theorem rewrite_leaves_bracketed_tag :
    rewriteClause "[x] == [y]" [("[x]", JsVal.str "1"), ("[y]", JsVal.str "2")] =
      .ok ⟨[("x", "1"), ("y", "2")], "[x] == y"⟩ ∧
    containsL "[x]".data "[x] == y".data = true :=
  ⟨rfl, rfl⟩

/-- C8: a template without directives renders as itself with every
replacement key substituted by the source's `split(key).join(value)` loop,
and when no key occurs in the template the render is the identity. -/
theorem render_no_directives (t : String) (r g : List (String × JsVal))
    (h : hasDirective t = false) :
    render t r g = .ok (substAll r t) ∧
    ((∀ kv ∈ r, containsL kv.1.data t.data = false) → render t r g = .ok t) := by
  have hsplit := splitTemplate_of_no_directive t h
  have h1 : render t r g = .ok (substAll r t) := by
    unfold render
    rw [hsplit]
    rfl
  refine ⟨h1, fun hk => ?_⟩
  rw [h1, substAll_of_no_key r t hk]

/-- Witness for C8 at the directive-free template `"hello"` with a
replacement key that does not occur in it. -/
theorem render_no_directives_witness :
    hasDirective "hello" = false ∧
    render "hello" [("[x]", JsVal.str "world")] [] = .ok "hello" :=
  ⟨rfl, (render_no_directives "hello" [("[x]", JsVal.str "world")] [] rfl).2 (by decide)⟩

/-- C9: rendering is not free of ambient effects: the constructor's first
statement `window.replacements = replacements` changes the window state, so
after rendering the plain template `"A"` the global `replacements` slot
holds the caller's map where it was empty before. -/
theorem constructor_writes_window :
    (TemplateConstructor "A" [("[k]", JsVal.str "v")] ⟨[], []⟩).2.replacements =
      [("[k]", JsVal.str "v")] ∧
    (TemplateConstructor "A" [("[k]", JsVal.str "v")] ⟨[], []⟩).1 = .ok "A" ∧
    (Window.mk [] []).replacements = [] ∧
    ([("[k]", JsVal.str "v")] : List (String × JsVal)) ≠ [] :=
  ⟨rfl, rfl, rfl, by simp⟩

/-- C10: the clause evaluator binds a bare tag's replacement value as a
quoted string (`let x = "<String(v)>";`), so the guard `"[x]"` evaluates to
`true` for every bound value whose string form is non-empty (and does not
break the generated string literal) — in particular `false` and `0`,
whose string forms `"false"` and `"0"` are non-empty. -/
theorem bare_tag_nonempty_string_truthy (v : JsVal) (g : List (String × JsVal))
    (h1 : strOf v ≠ "") (h2 : cleanStr (strOf v) = true) :
    EvaluateClause "[x]" [("[x]", v)] g = .ok true := by
  show runClause [("x", strOf v)] "x" g = Except.ok true
  rw [runClause_single_x (strOf v) g h2]
  rw [beq_eq_false_iff_ne.mpr h1]
  rfl

/-- Witness for C10 at the binding `false`, whose string form `"false"` is
non-empty and therefore truthy. -/
theorem bare_tag_nonempty_string_truthy_witness :
    strOf (JsVal.bool false) ≠ "" ∧
    EvaluateClause "[x]" [("[x]", JsVal.bool false)] [] = .ok true :=
  ⟨by decide, bare_tag_nonempty_string_truthy (JsVal.bool false) [] (by decide) (by decide)⟩
